import Mathlib

/-!
Verification of the NanoSense MQTT device emulator
(src/emulation/mqtt_emulator.py) against its natural-language
specification.

The Python source is shallowly embedded over the rationals: every random
draw the source takes from the global random module is an explicit
parameter, so each sampling routine becomes a pure state transformer
on the walk states.  Python's round(x, n) (round half to even on the
scaled value) is modelled exactly by pyRound.
-/

namespace NanoSense

/-- Embedding of clamp(v, lo, hi) = max(lo, min(hi, v)). -/
def clamp (v lo hi : ℚ) : ℚ := max lo (min hi v)

/-- Embedding of class RandomWalk: current value v, per-tick step bound,
and inclusive bounds lo, hi. -/
structure RandomWalk where
  v : ℚ
  step : ℚ
  lo : ℚ
  hi : ℚ
deriving DecidableEq, Repr

/-- Embedding of RandomWalk.next(jitter).  The two random draws are
explicit: u stands for random.uniform(-step, step) and g for
random.gauss(0, jitter); the method adds u, then g * 0.01 * (hi - lo),
clamps to the bounds, stores the result and also returns it. -/
def RandomWalk.next (w : RandomWalk) (u g : ℚ) : RandomWalk × ℚ :=
  let v2 := w.v + u + g * (1/100) * (w.hi - w.lo)
  let v3 := clamp v2 w.lo w.hi
  ({ w with v := v3 }, v3)

/-- N successive calls to RandomWalk.next, one per pair of draws;
returns the final walk state and the list of returned values. -/
def runWalk (w : RandomWalk) : List (ℚ × ℚ) → RandomWalk × List ℚ
  | [] => (w, [])
  | (u, g) :: ds =>
    let r := w.next u g
    let rest := runWalk r.1 ds
    (rest.1, r.2 :: rest.2)

lemma clamp_mem (v lo hi : ℚ) (h : lo ≤ hi) :
    lo ≤ clamp v lo hi ∧ clamp v lo hi ≤ hi := by
  constructor
  · exact le_max_left _ _
  · exact max_le h (min_le_left _ _)

lemma next_fields (w : RandomWalk) (u g : ℚ) :
    (w.next u g).1.lo = w.lo ∧ (w.next u g).1.hi = w.hi ∧
      (w.next u g).1.step = w.step := ⟨rfl, rfl, rfl⟩

lemma next_stored_eq_returned (w : RandomWalk) (u g : ℚ) :
    (w.next u g).1.v = (w.next u g).2 := rfl

lemma next_bounded (w : RandomWalk) (u g : ℚ) (h : w.lo ≤ w.hi) :
    w.lo ≤ (w.next u g).2 ∧ (w.next u g).2 ≤ w.hi :=
  clamp_mem _ _ _ h

lemma runWalk_bounded (ds : List (ℚ × ℚ)) :
    ∀ w : RandomWalk, w.lo ≤ w.hi →
      ∀ x ∈ (runWalk w ds).2, w.lo ≤ x ∧ x ≤ w.hi := by
  induction ds with
  | nil => intro w _ x hx; simp [runWalk] at hx
  | cons d ds ih =>
    intro w h x hx
    obtain ⟨u, g⟩ := d
    simp only [runWalk, List.mem_cons] at hx
    rcases hx with rfl | hx
    · exact next_bounded w u g h
    · have h1 : (w.next u g).1.lo ≤ (w.next u g).1.hi := h
      have := ih (w.next u g).1 h1 x hx
      exact this

/-- C4: for every RandomWalk with lo ≤ hi and every finite sequence of
advances (arbitrary uniform and Gaussian draws, hence arbitrary
non-negative jitter scales), every returned value lies in [lo, hi],
and after each single call the stored value equals the returned value,
which also lies in [lo, hi]. -/
theorem randomWalk_bounded (w : RandomWalk) (h : w.lo ≤ w.hi) :
    (∀ u g : ℚ, (w.next u g).1.v = (w.next u g).2 ∧
        w.lo ≤ (w.next u g).2 ∧ (w.next u g).2 ≤ w.hi) ∧
    (∀ ds : List (ℚ × ℚ), ∀ x ∈ (runWalk w ds).2,
        w.lo ≤ x ∧ x ≤ w.hi) := by
  constructor
  · intro u g
    exact ⟨next_stored_eq_returned w u g, next_bounded w u g h⟩
  · intro ds
    exact runWalk_bounded ds w h

/-- C4 witness: the boundedness theorem applied to a concrete walk with
bounds [-1, 1] and two concrete advances whose raw increments overshoot
both bounds; the second returned value -1 (raw increment -7.96, clamped)
lies within the bounds. -/
theorem randomWalk_bounded_witness :
    (RandomWalk.mk 0 1 (-1) 1).lo ≤ (-1 : ℚ) ∧
      (-1 : ℚ) ≤ (RandomWalk.mk 0 1 (-1) 1).hi :=
  (randomWalk_bounded (RandomWalk.mk 0 1 (-1) 1) (by norm_num)).2
    [(5, 0), (-9, 2)] (-1)
    (by norm_num [runWalk, RandomWalk.next, clamp])

/-! ### Python rounding

Python's builtin round(x, n) rounds x * 10 ^ n to the nearest integer,
ties to even, and divides back. -/

/-- Round a rational to the nearest integer, ties to even, as Python's
builtin round does. -/
def roundHalfEven (x : ℚ) : ℤ :=
  let f := ⌊x⌋
  let r := x - f
  if r < 1/2 then f
  else if 1/2 < r then f + 1
  else if 2 ∣ f then f else f + 1

/-- Embedding of Python round(x, n) for n ≥ 0. -/
def pyRound (x : ℚ) (n : ℕ) : ℚ := (roundHalfEven (x * 10 ^ n) : ℚ) / 10 ^ n

/-- Decimal precision: x is an integer multiple of 10 ^ (-n). -/
def hasPrecision (x : ℚ) (n : ℕ) : Prop := ∃ k : ℤ, x = (k : ℚ) / 10 ^ n

lemma pyRound_hasPrecision (x : ℚ) (n : ℕ) : hasPrecision (pyRound x n) n :=
  ⟨roundHalfEven (x * 10 ^ n), rfl⟩

lemma roundHalfEven_err (x : ℚ) : |(roundHalfEven x : ℚ) - x| ≤ 1/2 := by
  unfold roundHalfEven
  have hfl : (⌊x⌋ : ℚ) ≤ x := Int.floor_le x
  have hfu : x < (⌊x⌋ : ℚ) + 1 := Int.lt_floor_add_one x
  by_cases h1 : x - (⌊x⌋ : ℚ) < 1/2
  · simp only [h1, if_true]
    rw [abs_sub_comm, abs_of_nonneg (by linarith)]
    linarith
  · by_cases h2 : (1:ℚ)/2 < x - (⌊x⌋ : ℚ)
    · simp only [h1, if_false, h2, if_true]
      push_cast
      rw [abs_of_nonneg (by linarith)]
      linarith
    · have heq : x - (⌊x⌋ : ℚ) = 1/2 := le_antisymm (not_lt.1 h2) (not_lt.1 h1)
      simp only [h1, if_false, h2]
      by_cases h3 : 2 ∣ ⌊x⌋
      · simp only [h3, if_true]
        rw [abs_sub_comm, abs_of_nonneg (by linarith)]
        linarith
      · simp only [h3, if_false]
        push_cast
        rw [abs_of_nonneg (by linarith)]
        linarith

lemma pyRound_err (x : ℚ) (n : ℕ) : |pyRound x n - x| ≤ 1 / (2 * 10 ^ n) := by
  have h10 : (0:ℚ) < 10 ^ n := by positivity
  have h := roundHalfEven_err (x * 10 ^ n)
  unfold pyRound
  rw [div_sub' _ _ _ (ne_of_gt h10), abs_div, abs_of_pos h10,
    div_le_div_iff₀ h10 (by positivity), mul_comm ((10:ℚ) ^ n) x]
  calc |(roundHalfEven (x * 10 ^ n) : ℚ) - x * 10 ^ n| * (2 * 10 ^ n)
      ≤ (1/2) * (2 * 10 ^ n) := by
        apply mul_le_mul_of_nonneg_right h (by positivity)
    _ = 1 * 10 ^ n := by ring

/-! ### DeviceEmulator environmental sampling (_bme_payload)

Every random draw the method makes is a field of BmeDraws: for each
walk the uniform and Gaussian increments, the two random.random()
excursion checks, the two excursion bump draws and the VOC noise draw.
Draws for a branch not taken are simply unused, matching the source,
where the bump draw only happens inside the taken branch. -/

/-- Walk state owned by a DeviceEmulator for the BME688 quantities,
as created in DeviceEmulator.__init__. -/
structure EnvWalks where
  temp : RandomWalk
  rh : RandomWalk
  press_pa : RandomWalk
  gas : RandomWalk
  iaq : RandomWalk
  voc_index : RandomWalk
  co2_eq : RandomWalk
deriving DecidableEq, Repr

/-- Random draws consumed by one _bme_payload call. -/
structure BmeDraws where
  tempU : ℚ
  tempG : ℚ
  rhU : ℚ
  rhG : ℚ
  pressU : ℚ
  pressG : ℚ
  gasU : ℚ
  gasG : ℚ
  iaqU : ℚ
  iaqG : ℚ
  iaqEventR : ℚ
  iaqBump : ℚ
  vocU : ℚ
  vocG : ℚ
  vocNoise : ℚ
  co2U : ℚ
  co2G : ℚ
  co2EventR : ℚ
  co2Bump : ℚ
deriving DecidableEq, Repr

/-- Pre-rounding values of one _bme_payload call, in source order:
the raw advanced walk values, the possibly excursion-adjusted iaq_val
and co2_val, and the coupled voc_val. -/
structure BmeVals where
  t_raw : ℚ
  rh_raw : ℚ
  p_raw : ℚ
  gas_raw : ℚ
  iaq_val : ℚ
  voc_val : ℚ
  co2_val : ℚ
deriving DecidableEq, Repr

/-- State update and pre-rounding values of one _bme_payload call:
advances every walk once; with probability 0.02 (iaqEventR < 0.02)
adds a U(20,80) excursion to the local iaq value, clamped to [5,250];
computes voc_val = advanced voc + U(-3,3) + 0.3 * (iaq_val - 35),
clamped to [0,500]; with probability 0.02 adds a U(100,300) excursion
to the local co2 value, clamped to [400,2000]. -/
def bmeStep (s : EnvWalks) (d : BmeDraws) : EnvWalks × BmeVals :=
  let tR := s.temp.next d.tempU d.tempG
  let rhR := s.rh.next d.rhU d.rhG
  let pR := s.press_pa.next d.pressU d.pressG
  let gR := s.gas.next d.gasU d.gasG
  let iaqR := s.iaq.next d.iaqU d.iaqG
  let iaq_val := if d.iaqEventR < 2/100 then clamp (iaqR.2 + d.iaqBump) 5 250
    else iaqR.2
  let vocR := s.voc_index.next d.vocU d.vocG
  let voc_val := clamp (vocR.2 + d.vocNoise + (3/10) * (iaq_val - 35)) 0 500
  let co2R := s.co2_eq.next d.co2U d.co2G
  let co2_val := if d.co2EventR < 2/100 then clamp (co2R.2 + d.co2Bump) 400 2000
    else co2R.2
  ({ temp := tR.1, rh := rhR.1, press_pa := pR.1, gas := gR.1,
     iaq := iaqR.1, voc_index := vocR.1, co2_eq := co2R.1 },
   { t_raw := tR.2, rh_raw := rhR.2, p_raw := pR.2, gas_raw := gR.2,
     iaq_val := iaq_val, voc_val := voc_val, co2_val := co2_val })

/-- Payload dict returned by _bme_payload. -/
structure BmePayload where
  t_c : ℚ
  rh_pct : ℚ
  p_pa : ℚ
  gas_ohm : ℚ
  iaq : ℚ
  voc_index : ℚ
  co2_eq : ℚ
  ts : String
deriving DecidableEq, Repr

/-- Embedding of DeviceEmulator._bme_payload(ts): the new walk state and
the payload, whose numeric fields round the values of bmeStep exactly as
the source does: round(..., 2) for t_c, round(..., 1) for rh_pct, iaq
and voc_index, round(..., 0) for p_pa, gas_ohm and co2_eq. -/
def bme_payload (s : EnvWalks) (d : BmeDraws) (ts : String) :
    EnvWalks × BmePayload :=
  let r := bmeStep s d
  (r.1,
   { t_c := pyRound r.2.t_raw 2,
     rh_pct := pyRound r.2.rh_raw 1,
     p_pa := pyRound r.2.p_raw 0,
     gas_ohm := pyRound r.2.gas_raw 0,
     iaq := pyRound r.2.iaq_val 1,
     voc_index := pyRound r.2.voc_val 1,
     co2_eq := pyRound r.2.co2_val 0,
     ts := ts })

/-- Concrete walk state used for counterexamples and witnesses: every
start value is the midpoint the source draws from (or its fixed start),
with the step sizes and bounds of DeviceEmulator.__init__. -/
def cS : EnvWalks :=
  { temp := ⟨20, 1/20, 10, 35⟩, rh := ⟨45, 1/5, 15, 90⟩,
    press_pa := ⟨101325, 30, 98000, 104000⟩,
    gas := ⟨50000, 500, 1000, 200000⟩,
    iaq := ⟨35, 5/2, 5, 250⟩, voc_index := ⟨15, 2, 0, 500⟩,
    co2_eq := ⟨600, 15, 400, 2000⟩ }

/-- Concrete draws: the temperature uniform draw is 0.03 and its
Gaussian draw 0.4 (so the raw advanced temperature is 20.13); both
excursion checks draw 1, so neither excursion fires; all other draws
are zero. -/
def cD : BmeDraws :=
  { tempU := 3/100, tempG := 2/5, rhU := 0, rhG := 0, pressU := 0,
    pressG := 0, gasU := 0, gasG := 0, iaqU := 0, iaqG := 0,
    iaqEventR := 1, iaqBump := 0, vocU := 0, vocG := 0, vocNoise := 0,
    co2U := 0, co2G := 0, co2EventR := 1, co2Bump := 0 }

lemma cS_t_c : (bme_payload cS cD "t").2.t_c = 2013/100 := by
  norm_num [bme_payload, bmeStep, RandomWalk.next, clamp, pyRound,
    roundHalfEven, cS, cD]

/-- C1 counterexample: at a concrete call whose raw advanced temperature
is 20.13 degrees, the published t_c field is 20.13 (the source rounds
temperature to 2 decimal places), which is not an integer multiple of
0.1 — so the claim that every call rounds temperature to 1 decimal
place is false. -/
theorem bme_rounding_claim_counterexample :
    ¬ (hasPrecision (bme_payload cS cD "t").2.t_c 1 ∧
       hasPrecision (bme_payload cS cD "t").2.rh_pct 1 ∧
       hasPrecision (bme_payload cS cD "t").2.iaq 1 ∧
       hasPrecision (bme_payload cS cD "t").2.voc_index 1 ∧
       hasPrecision (bme_payload cS cD "t").2.p_pa 0 ∧
       hasPrecision (bme_payload cS cD "t").2.gas_ohm 0 ∧
       hasPrecision (bme_payload cS cD "t").2.co2_eq 0) := by
  rintro ⟨⟨k, hk⟩, -⟩
  rw [cS_t_c] at hk
  have h10 : (2013 : ℚ) * 10 = k * 100 := by
    field_simp at hk
    linarith
  have hz : (2013 : ℤ) * 10 = k * 100 := by exact_mod_cast h10
  omega

/-- C1 amended: every numeric field of the environmental payload is the
source's fixed-precision rounding of the corresponding pre-rounding
value — temperature to 2 decimal places (not 1 as claimed), humidity,
IAQ and VOC index to 1 decimal place, pressure, gas resistance and
CO2-equivalent to an integer — i.e. each output is an integer multiple
of its precision and within half an ulp of the raw value. -/
theorem bme_payload_precision (s : EnvWalks) (d : BmeDraws) (ts : String) :
    (hasPrecision (bme_payload s d ts).2.t_c 2 ∧
      |(bme_payload s d ts).2.t_c - (bmeStep s d).2.t_raw| ≤ 1/200) ∧
    (hasPrecision (bme_payload s d ts).2.rh_pct 1 ∧
      |(bme_payload s d ts).2.rh_pct - (bmeStep s d).2.rh_raw| ≤ 1/20) ∧
    (hasPrecision (bme_payload s d ts).2.iaq 1 ∧
      |(bme_payload s d ts).2.iaq - (bmeStep s d).2.iaq_val| ≤ 1/20) ∧
    (hasPrecision (bme_payload s d ts).2.voc_index 1 ∧
      |(bme_payload s d ts).2.voc_index - (bmeStep s d).2.voc_val| ≤ 1/20) ∧
    (hasPrecision (bme_payload s d ts).2.p_pa 0 ∧
      |(bme_payload s d ts).2.p_pa - (bmeStep s d).2.p_raw| ≤ 1/2) ∧
    (hasPrecision (bme_payload s d ts).2.gas_ohm 0 ∧
      |(bme_payload s d ts).2.gas_ohm - (bmeStep s d).2.gas_raw| ≤ 1/2) ∧
    (hasPrecision (bme_payload s d ts).2.co2_eq 0 ∧
      |(bme_payload s d ts).2.co2_eq - (bmeStep s d).2.co2_val| ≤ 1/2) := by
  refine ⟨⟨pyRound_hasPrecision _ 2, ?_⟩, ⟨pyRound_hasPrecision _ 1, ?_⟩,
    ⟨pyRound_hasPrecision _ 1, ?_⟩, ⟨pyRound_hasPrecision _ 1, ?_⟩,
    ⟨pyRound_hasPrecision _ 0, ?_⟩, ⟨pyRound_hasPrecision _ 0, ?_⟩,
    ⟨pyRound_hasPrecision _ 0, ?_⟩⟩
  · show |pyRound (bmeStep s d).2.t_raw 2 - (bmeStep s d).2.t_raw| ≤ 1/200
    exact le_trans (pyRound_err (bmeStep s d).2.t_raw 2) (by norm_num)
  · show |pyRound (bmeStep s d).2.rh_raw 1 - (bmeStep s d).2.rh_raw| ≤ 1/20
    exact le_trans (pyRound_err (bmeStep s d).2.rh_raw 1) (by norm_num)
  · show |pyRound (bmeStep s d).2.iaq_val 1 - (bmeStep s d).2.iaq_val| ≤ 1/20
    exact le_trans (pyRound_err (bmeStep s d).2.iaq_val 1) (by norm_num)
  · show |pyRound (bmeStep s d).2.voc_val 1 - (bmeStep s d).2.voc_val| ≤ 1/20
    exact le_trans (pyRound_err (bmeStep s d).2.voc_val 1) (by norm_num)
  · show |pyRound (bmeStep s d).2.p_raw 0 - (bmeStep s d).2.p_raw| ≤ 1/2
    exact le_trans (pyRound_err (bmeStep s d).2.p_raw 0) (by norm_num)
  · show |pyRound (bmeStep s d).2.gas_raw 0 - (bmeStep s d).2.gas_raw| ≤ 1/2
    exact le_trans (pyRound_err (bmeStep s d).2.gas_raw 0) (by norm_num)
  · show |pyRound (bmeStep s d).2.co2_val 0 - (bmeStep s d).2.co2_val| ≤ 1/2
    exact le_trans (pyRound_err (bmeStep s d).2.co2_val 0) (by norm_num)

/-- C6: the published VOC index always equals the rounding of
clamp(advanced voc walk value + U(-3,3) noise + 0.3 * (iaq_val - 35),
0, 500), where iaq_val is the possibly excursion-adjusted IAQ value;
and when iaq_val is exactly 35 the coupling term vanishes, so the VOC
index is computed from the walk value plus only its own noise term. -/
theorem voc_coupling (s : EnvWalks) (d : BmeDraws) (ts : String) :
    (bme_payload s d ts).2.voc_index =
      pyRound (clamp ((s.voc_index.next d.vocU d.vocG).2 + d.vocNoise +
        (3/10) * ((bmeStep s d).2.iaq_val - 35)) 0 500) 1 ∧
    ((bmeStep s d).2.iaq_val = 35 →
      (bme_payload s d ts).2.voc_index =
        pyRound (clamp ((s.voc_index.next d.vocU d.vocG).2 + d.vocNoise)
          0 500) 1) := by
  constructor
  · rfl
  · intro h
    show pyRound (clamp ((s.voc_index.next d.vocU d.vocG).2 + d.vocNoise +
      (3/10) * ((bmeStep s d).2.iaq_val - 35)) 0 500) 1 = _
    rw [h]
    norm_num

/-- C6 witness: the coupling theorem applied at the concrete state cS
and draws cD, where the IAQ walk sits exactly at the baseline 35 and no
excursion fires, so the VOC index is 15 = walk value + own noise only. -/
theorem voc_coupling_witness :
    (bmeStep cS cD).2.iaq_val = 35 ∧
    (bme_payload cS cD "t").2.voc_index =
      pyRound (clamp ((cS.voc_index.next cD.vocU cD.vocG).2 + cD.vocNoise)
        0 500) 1 :=
  ⟨by norm_num [bmeStep, RandomWalk.next, clamp, cS, cD],
   (voc_coupling cS cD "t").2
     (by norm_num [bmeStep, RandomWalk.next, clamp, cS, cD])⟩

/-- C10: the IAQ and CO2-equivalent excursions never touch the stored
walk state: after any _bme_payload call — whatever the excursion draws
were — the stored IAQ and CO2 walks equal the plain post-advance walks,
and their stored values equal the post-advance returned values. -/
theorem env_excursions_not_persistent (s : EnvWalks) (d : BmeDraws)
    (ts : String) :
    ((bme_payload s d ts).1.iaq = (s.iaq.next d.iaqU d.iaqG).1 ∧
     (bme_payload s d ts).1.co2_eq = (s.co2_eq.next d.co2U d.co2G).1) ∧
    ((bme_payload s d ts).1.iaq.v = (s.iaq.next d.iaqU d.iaqG).2 ∧
     (bme_payload s d ts).1.co2_eq.v = (s.co2_eq.next d.co2U d.co2G).2) :=
  ⟨⟨rfl, rfl⟩, ⟨rfl, rfl⟩⟩

/-! ### DeviceEmulator particulate sampling (_sps_payload) -/

/-- Walk state for the SPS30 particulate sizes, as created in
DeviceEmulator.__init__. -/
structure PmWalks where
  pm1 : RandomWalk
  pm25 : RandomWalk
  pm4 : RandomWalk
  pm10 : RandomWalk
deriving DecidableEq, Repr

/-- Random draws consumed by one _sps_payload call: the random.random()
event check, the U(10,30) bump (only consumed when the event fires), and
the per-walk advance draws. -/
structure SpsDraws where
  eventR : ℚ
  bump : ℚ
  pm1U : ℚ
  pm1G : ℚ
  pm25U : ℚ
  pm25G : ℚ
  pm4U : ℚ
  pm4G : ℚ
  pm10U : ℚ
  pm10G : ℚ
deriving DecidableEq, Repr

/-- Payload dict returned by _sps_payload. -/
structure SpsPayload where
  pm1_0 : ℚ
  pm2_5 : ℚ
  pm4_0 : ℚ
  pm10 : ℚ
  ts : String
deriving DecidableEq, Repr

/-- Embedding of DeviceEmulator._sps_payload(ts): with probability 0.015
(eventR < 0.015) the stored pm25 value gets the bump and the stored pm10
value gets bump * 1.2, each reclamped to that walk's literal bounds, and
only then every walk is advanced once and the advanced values are
rounded to 1 decimal place. -/
def sps_payload (s : PmWalks) (d : SpsDraws) (ts : String) :
    PmWalks × SpsPayload :=
  let s1 := if d.eventR < 3/200 then
      { s with pm25 := { s.pm25 with v := clamp (s.pm25.v + d.bump) 0 200 },
               pm10 := { s.pm10 with
                 v := clamp (s.pm10.v + d.bump * (12/10)) 0 300 } }
    else s
  let r1 := s1.pm1.next d.pm1U d.pm1G
  let r25 := s1.pm25.next d.pm25U d.pm25G
  let r4 := s1.pm4.next d.pm4U d.pm4G
  let r10 := s1.pm10.next d.pm10U d.pm10G
  ({ pm1 := r1.1, pm25 := r25.1, pm4 := r4.1, pm10 := r10.1 },
   { pm1_0 := pyRound r1.2 1, pm2_5 := pyRound r25.2 1,
     pm4_0 := pyRound r4.2 1, pm10 := pyRound r10.2 1, ts := ts })

/-- C5: whenever the particulate event fires (eventR < 0.015), the
call's resulting stored pm25 walk is exactly the normal advance applied
to the walk whose value was first bumped by U(10,30) and reclamped to
[0,200], and the stored pm10 walk the advance of the walk bumped by
1.2 times that and reclamped to [0,300] — so the bump lands in the
persistent state before the per-tick advance — and the published
readings are the roundings of those new persistent values, so the next
tick's baseline still reflects the bump. -/
theorem particulate_event_persists (s : PmWalks) (d : SpsDraws)
    (ts : String) (h : d.eventR < 3/200) :
    ((sps_payload s d ts).1.pm25 =
       (RandomWalk.next { s.pm25 with v := clamp (s.pm25.v + d.bump) 0 200 }
         d.pm25U d.pm25G).1 ∧
     (sps_payload s d ts).1.pm10 =
       (RandomWalk.next
         { s.pm10 with v := clamp (s.pm10.v + d.bump * (12/10)) 0 300 }
         d.pm10U d.pm10G).1) ∧
    ((sps_payload s d ts).2.pm2_5 = pyRound (sps_payload s d ts).1.pm25.v 1 ∧
     (sps_payload s d ts).2.pm10 = pyRound (sps_payload s d ts).1.pm10.v 1) := by
  unfold sps_payload
  rw [if_pos h]
  exact ⟨⟨rfl, rfl⟩, ⟨rfl, rfl⟩⟩

/-- Concrete particulate walk state: the start values of
DeviceEmulator.__init__ with their step sizes and bounds. -/
def cPm : PmWalks :=
  { pm1 := ⟨3, 1/2, 0, 100⟩, pm25 := ⟨6, 4/5, 0, 200⟩,
    pm4 := ⟨8, 1, 0, 250⟩, pm10 := ⟨10, 6/5, 0, 300⟩ }

/-- Concrete particulate draws: the event check draws 0.01 < 0.015, so
the event fires with a bump of 20; all advance draws are zero. -/
def cSps : SpsDraws :=
  { eventR := 1/100, bump := 20, pm1U := 0, pm1G := 0, pm25U := 0,
    pm25G := 0, pm4U := 0, pm4G := 0, pm10U := 0, pm10G := 0 }

/-- C5 witness: the persistence theorem applied at the concrete state
cPm and event-firing draws cSps. -/
theorem particulate_event_persists_witness :
    cSps.eventR < 3/200 ∧
    (sps_payload cPm cSps "t").1.pm25 =
      (RandomWalk.next { cPm.pm25 with v := clamp (cPm.pm25.v + cSps.bump) 0 200 }
        cSps.pm25U cSps.pm25G).1 :=
  ⟨by norm_num [cSps],
   ((particulate_event_persists cPm cSps "t" (by norm_num [cSps])).1).1⟩

/-! ### Differential-pressure walk construction (DeviceEmulator.__init__) -/

/-- Baseline chosen in DeviceEmulator.__init__:
base = -80.0 if ch == 1 else -95.0. -/
def dpBase (ch : ℤ) : ℚ := if ch = 1 then -80 else -95

/-- Embedding of RandomWalk(start=base + random.uniform(-8, 8),
step=3.0, lo=-300, hi=20) for one channel; seed is the U(-8,8) draw. -/
def mkDpWalk (ch : ℤ) (seed : ℚ) : RandomWalk :=
  { v := dpBase ch + seed, step := 3, lo := -300, hi := 20 }

/-- Embedding of the dp_walk construction loop: one walk per configured
channel, each consuming its own U(-8,8) seed draw. -/
def mkDpWalks (chans : List ℤ) (seeds : List ℚ) : List (ℤ × RandomWalk) :=
  (chans.zip seeds).map fun p => (p.1, mkDpWalk p.1 p.2)

/-- C2 counterexample: with configured channel list [2] the first (and
only) configured channel is seeded from the -95 baseline, not from a
value within 8 of -80 — the source keys the baseline on the channel
identifier being 1, not on the position in the configured list. -/
theorem dp_first_channel_counterexample :
    mkDpWalks [2] [0] = [(2, RandomWalk.mk (-95) 3 (-300) 20)] ∧
    ¬ (-88 ≤ (RandomWalk.mk (-95) 3 (-300) 20).v ∧
        (RandomWalk.mk (-95) 3 (-300) 20).v ≤ -72) := by
  constructor
  · simp [mkDpWalks, mkDpWalk, dpBase]
  · rintro ⟨h1, -⟩
    norm_num at h1

/-- C2 amended: for every configured channel list and in-range U(-8,8)
seed draws, the channel with identifier 1 (not the first configured
channel) is seeded within 8 of the -80 baseline and every channel with
a different identifier within 8 of the -95 baseline; the baseline is a
construction-time seed only — the walk keeps the channel-independent
step 3 and bounds [-300, 20], and two dp walks whose current values
coincide advance identically whatever their channels and baselines
were. -/
theorem dp_channel_baselines (chans : List ℤ) (seeds : List ℚ)
    (hs : ∀ x ∈ seeds, -8 ≤ x ∧ x ≤ 8) :
    (∀ p ∈ mkDpWalks chans seeds,
      (p.1 = 1 → -88 ≤ p.2.v ∧ p.2.v ≤ -72) ∧
      (p.1 ≠ 1 → -103 ≤ p.2.v ∧ p.2.v ≤ -87) ∧
      p.2.step = 3 ∧ p.2.lo = -300 ∧ p.2.hi = 20) ∧
    (∀ (ch ch' : ℤ) (x y : ℚ), (mkDpWalk ch x).v = (mkDpWalk ch' y).v →
      ∀ u g : ℚ, (mkDpWalk ch x).next u g = (mkDpWalk ch' y).next u g) := by
  constructor
  · intro p hp
    obtain ⟨q, hq, rfl⟩ := List.mem_map.1 hp
    have hseed : q.2 ∈ seeds := (List.of_mem_zip hq).2
    obtain ⟨hlo, hhi⟩ := hs q.2 hseed
    refine ⟨?_, ?_, rfl, rfl, rfl⟩
    · intro h1
      have h1' : q.1 = 1 := h1
      simp only [mkDpWalk, dpBase, if_pos h1']
      constructor <;> linarith
    · intro h1
      have h1' : ¬ q.1 = 1 := h1
      simp only [mkDpWalk, dpBase, if_neg h1']
      constructor <;> linarith
  · intro ch ch' x y h u g
    simp only [mkDpWalk] at h ⊢
    simp only [RandomWalk.next, clamp, h]

/-- C2 witness: the amended baseline theorem applied to the configured
channel list [2, 1] with zero seeds: channel 2, although configured
first, is seeded near -95, and channel 1, configured second, near
-80. -/
theorem dp_channel_baselines_witness :
    (-88 ≤ (mkDpWalk 1 0).v ∧ (mkDpWalk 1 0).v ≤ -72) ∧
    (-103 ≤ (mkDpWalk 2 0).v ∧ (mkDpWalk 2 0).v ≤ -87) :=
  ⟨((dp_channel_baselines [2, 1] [0, 0] (by norm_num)).1
      (1, mkDpWalk 1 0) (by simp [mkDpWalks])).1 rfl,
   ((dp_channel_baselines [2, 1] [0, 0] (by norm_num)).1
      (2, mkDpWalk 2 0) (by simp [mkDpWalks])).2.1 (by decide)⟩

/-! ### DeviceEmulator.publish_once: one tick of one device -/

/-- Payload dict returned by _dp_payload for one channel. -/
structure DpPayload where
  dp_pa : ℚ
  ts : String
deriving DecidableEq, Repr

/-- Embedding of DeviceEmulator._dp_payload(ch, ts) for the channel's
walk: advance once and round to 1 decimal place. -/
def dp_payload (w : RandomWalk) (u g : ℚ) (ts : String) :
    RandomWalk × DpPayload :=
  let r := w.next u g
  (r.1, { dp_pa := pyRound r.2 1, ts := ts })

/-- One payload handed to client.publish during a tick. -/
inductive TickPayload where
  | bme (p : BmePayload)
  | sps (p : SpsPayload)
  | dp (ch : ℤ) (p : DpPayload)
deriving DecidableEq, Repr

/-- Timestamp field of a published payload. -/
def TickPayload.ts : TickPayload → String
  | .bme p => p.ts
  | .sps p => p.ts
  | .dp _ p => p.ts

/-- Full per-device walk state: the environmental walks, the particulate
walks, and one dp walk per configured channel in configured order. -/
structure DeviceState where
  env : EnvWalks
  pm : PmWalks
  dp_walk : List (ℤ × RandomWalk)

/-- Random draws consumed by one publish_once call: draws for the
environmental payload, the particulate payload, and a stream of
(uniform, Gaussian) pairs consumed one per dp channel. -/
structure TickDraws where
  bme : BmeDraws
  sps : SpsDraws
  dp : ℕ → ℚ × ℚ

/-- The dp publishing loop of publish_once: advances each channel's
walk in configured order, consuming one draw pair per channel, and
emits one dp payload per channel with the shared timestamp. -/
def dpLoop : List (ℤ × RandomWalk) → (ℕ → ℚ × ℚ) → String →
    List (ℤ × RandomWalk) × List TickPayload
  | [], _, _ => ([], [])
  | (ch, w) :: rest, ds, ts =>
    let r := dp_payload w (ds 0).1 (ds 0).2 ts
    let tail := dpLoop rest (fun n => ds (n + 1)) ts
    ((ch, r.1) :: tail.1, TickPayload.dp ch r.2 :: tail.2)

/-- Embedding of DeviceEmulator.publish_once: ts = rfc3339_now() is
produced once at the start of the tick (here the parameter now), then
the environmental, particulate, and per-channel dp payloads are built
with that same ts and published in that order. -/
def publish_once (s : DeviceState) (d : TickDraws) (now : String) :
    DeviceState × List TickPayload :=
  let ts := now
  let b := bme_payload s.env d.bme ts
  let p := sps_payload s.pm d.sps ts
  let dps := dpLoop s.dp_walk d.dp ts
  ({ env := b.1, pm := p.1, dp_walk := dps.1 },
   TickPayload.bme b.2 :: TickPayload.sps p.2 :: dps.2)

lemma dpLoop_ts (ts : String) :
    ∀ (ws : List (ℤ × RandomWalk)) (ds : ℕ → ℚ × ℚ),
      ∀ p ∈ (dpLoop ws ds ts).2, p.ts = ts := by
  intro ws
  induction ws with
  | nil => intro ds p hp; simp [dpLoop] at hp
  | cons w rest ih =>
    intro ds p hp
    obtain ⟨ch, wlk⟩ := w
    simp only [dpLoop, List.mem_cons] at hp
    rcases hp with rfl | hp
    · rfl
    · exact ih (fun n => ds (n + 1)) p hp

/-- C7: in every tick of every device, the single timestamp produced at
the start of the tick is the one carried by the environmental payload,
the particulate payload, and every differential-pressure channel
payload published in that tick. -/
theorem tick_timestamp_shared (s : DeviceState) (d : TickDraws)
    (now : String) :
    ∀ p ∈ (publish_once s d now).2, p.ts = now := by
  intro p hp
  simp only [publish_once, List.mem_cons] at hp
  rcases hp with rfl | rfl | hp
  · rfl
  · rfl
  · exact dpLoop_ts now s.dp_walk d.dp p hp

/-- Concrete per-device state: the concrete environmental and
particulate walks together with one dp channel. -/
def cDev : DeviceState :=
  { env := cS, pm := cPm, dp_walk := [(1, mkDpWalk 1 0)] }

/-- Concrete tick draws combining the concrete environmental and
particulate draws with zero dp draws. -/
def cTick : TickDraws := { bme := cD, sps := cSps, dp := fun _ => (0, 0) }

/-- C7 witness: the shared-timestamp theorem applied to the concrete
device state and tick: the environmental payload published in that tick
carries the tick's timestamp. -/
theorem tick_timestamp_shared_witness :
    (TickPayload.bme (bme_payload cS cD "2026-01-01T00:00:00Z").2).ts =
      "2026-01-01T00:00:00Z" :=
  tick_timestamp_shared cDev cTick "2026-01-01T00:00:00Z"
    (TickPayload.bme (bme_payload cS cD "2026-01-01T00:00:00Z").2)
    (List.mem_cons_self _ _)

/-! ### Shutdown offline announcements (the finally block of main) -/

/-- Embedding of the shutdown loop

  for emu in emus: emu.publish_status(False)

in the finally block of main, for devices identified by index; fails i
says the publish call for device i raises.  A raised exception
propagates out of the plain for loop, so the failing device is the last
one whose publish is attempted. -/
def offlineAttempts : List ℕ → (ℕ → Bool) → List ℕ
  | [], _ => []
  | e :: rest, fails => if fails e then [e] else e :: offlineAttempts rest fails

/-- C3 counterexample: with two devices where announcing device 0
offline raises, the shutdown loop attempts device 0 only — the offline
publish for device 1 is never attempted, so the announcements are not
independent per device. -/
theorem shutdown_not_independent_counterexample :
    offlineAttempts [0, 1] (fun e => e == 0) = [0] ∧
    offlineAttempts [0, 1] (fun e => e == 0) ≠ [0, 1] := by
  constructor
  · rfl
  · decide

/-- C3 amended: the shutdown loop attempts the offline announcement for
each device in order only until the first failure: the attempted
devices are those before the first failing one plus that failing device
itself; in particular, when no publish fails every device is attempted,
but a failure stops the loop and skips every remaining device. -/
theorem offline_attempts_stop_at_first_failure (fails : ℕ → Bool) :
    ∀ devs : List ℕ,
      ((∀ e ∈ devs, fails e = false) → offlineAttempts devs fails = devs) ∧
      offlineAttempts devs fails =
        devs.takeWhile (fun e => !fails e) ++
          (devs.dropWhile (fun e => !fails e)).take 1 := by
  intro devs
  induction devs with
  | nil => exact ⟨fun _ => rfl, rfl⟩
  | cons e rest ih =>
    constructor
    · intro h
      have he : fails e = false := h e (List.mem_cons_self e rest)
      simp only [offlineAttempts, he, Bool.false_eq_true, if_false,
        List.cons.injEq, true_and]
      exact ih.1 fun x hx => h x (List.mem_cons_of_mem e hx)
    · by_cases he : fails e
      · simp [offlineAttempts, he, List.takeWhile_cons, List.dropWhile_cons]
      · simp only [offlineAttempts, he, Bool.false_eq_true, if_false,
          List.takeWhile_cons, List.dropWhile_cons]
        simp only [he, Bool.not_false, if_true, List.cons_append,
          List.cons.injEq, true_and]
        exact ih.2

/-- C3 witness: the amended theorem applied to two devices with no
failures — both offline announcements are attempted, in order. -/
theorem offline_attempts_witness :
    offlineAttempts [0, 1] (fun _ => false) = [0, 1] :=
  (offline_attempts_stop_at_first_failure (fun _ => false) [0, 1]).1
    (by simp)

/-! ### Publish-call trace of main

Each client.publish call of the whole process is recorded as one event
carrying the device index, the payload kind and the retain flag the
source passes. -/

/-- One client.publish call, with the retain flag the source passes. -/
inductive PubEvent where
  | status (dev : ℕ) (online : Bool) (retain : Bool)
  | bme (dev : ℕ) (retain : Bool)
  | sps (dev : ℕ) (retain : Bool)
  | dp (dev : ℕ) (ch : ℤ) (retain : Bool)
deriving DecidableEq, Repr

/-- Publish calls of one publish_once call for one device: the bme688
payload, the sps30 payload, then one dp payload per configured channel,
all with retain=False. -/
def publishOnceEvents (dev : ℕ) (chans : List ℤ) : List PubEvent :=
  PubEvent.bme dev false :: PubEvent.sps dev false ::
    chans.map fun ch => PubEvent.dp dev ch false

/-- Publish calls of a status loop (for emu in emus:
emu.publish_status(b)): one retained status publish per device in
order. -/
def statusPass : List ℕ → Bool → List PubEvent
  | [], _ => []
  | dev :: rest, b => PubEvent.status dev b true :: statusPass rest b

/-- Publish calls of one round of the main loop (for emu in emus:
emu.publish_once()): each device's tick publishes in device order. -/
def devicesPass : List ℕ → List ℤ → List PubEvent
  | [], _ => []
  | dev :: rest, chans => publishOnceEvents dev chans ++ devicesPass rest chans

/-- Publish calls of the main while loop running a given number of
complete rounds. -/
def loopRounds (devs : List ℕ) (chans : List ℤ) : ℕ → List PubEvent
  | 0 => []
  | n + 1 => devicesPass devs chans ++ loopRounds devs chans n

/-- Publish-call trace of main: the online status loop at construction,
then the try block — the completed rounds, followed, when a publish
raised during one more round attempt, by the events that failing round
emitted before raising (failTail) — then, since the offline loop is in
the finally block, the offline status loop, which runs whether or not
the try block raised. -/
def mainTrace (devs : List ℕ) (chans : List ℤ) (rounds : ℕ)
    (failTail : Option (List PubEvent)) : List PubEvent :=
  statusPass devs true ++
    (loopRounds devs chans rounds ++ failTail.getD []) ++
    statusPass devs false

lemma statusPass_eq (b : Bool) :
    ∀ devs : List ℕ,
      statusPass devs b = devs.map fun i => PubEvent.status i b true := by
  intro devs
  induction devs with
  | nil => rfl
  | cons d rest ih => simp [statusPass, ih]

lemma devicesPass_eq (chans : List ℤ) :
    ∀ devs : List ℕ,
      devicesPass devs chans =
        (devs.map fun i => publishOnceEvents i chans).flatten := by
  intro devs
  induction devs with
  | nil => rfl
  | cons d rest ih => simp [devicesPass, ih]

lemma loopRounds_eq (devs : List ℕ) (chans : List ℤ) :
    ∀ n : ℕ, loopRounds devs chans n =
      (List.replicate n (devicesPass devs chans)).flatten := by
  intro n
  induction n with
  | zero => rfl
  | succ n ih => simp [loopRounds, ih, List.replicate_succ]

/-- C8: the process publish-call sequence is exactly one retained
online status per device in order, then the completed rounds, each
consisting per device in order of one bme688, one sps30 and one dp
publish per configured channel, all unretained, then one retained
offline status per device in order; and whatever events a failing
round attempt emitted, the trace still ends with the full retained
offline status block. -/
theorem main_publish_order (devs : List ℕ) (chans : List ℤ) (N : ℕ) :
    (mainTrace devs chans N none =
      (devs.map fun i => PubEvent.status i true true) ++
      (List.replicate N
        ((devs.map fun i =>
          PubEvent.bme i false :: PubEvent.sps i false ::
            chans.map fun ch => PubEvent.dp i ch false).flatten)).flatten ++
      (devs.map fun i => PubEvent.status i false true)) ∧
    (∀ failTail : List PubEvent, ∃ p : List PubEvent,
      mainTrace devs chans N (some failTail) =
        p ++ (devs.map fun i => PubEvent.status i false true)) := by
  constructor
  · simp [mainTrace, statusPass_eq, devicesPass_eq, loopRounds_eq,
      publishOnceEvents]
  · intro failTail
    refine ⟨statusPass devs true ++
      (loopRounds devs chans N ++ failTail), ?_⟩
    simp [mainTrace, statusPass_eq, List.append_assoc]

/-! ### Inter-tick sleep policy of the main loop -/

/-- Embedding of the sleep computation of one loop iteration:
sleep = interval - elapsed; time.sleep(sleep) runs only if sleep > 0,
otherwise the next round starts immediately (sleep duration 0). -/
def sleepDuration (interval elapsed : ℚ) : ℚ :=
  let sleep := interval - elapsed
  if sleep > 0 then sleep else 0

/-- Sleep durations of consecutive rounds with the given elapsed
processing times: exactly one sleep decision per round. -/
def interTickSleeps (interval : ℚ) (es : List ℚ) : List ℚ :=
  es.map (sleepDuration interval)

/-- C9: each round sleeps interval - elapsed when that is positive and
zero otherwise (a round taking at least the interval is followed
immediately by the next), and a run of rounds makes exactly one sleep
decision per round — skipped periods are never replayed as extra
rounds. -/
theorem scheduler_sleep_policy (interval : ℚ) :
    (∀ e : ℚ, 0 < interval - e → sleepDuration interval e = interval - e) ∧
    (∀ e : ℚ, interval - e ≤ 0 → sleepDuration interval e = 0) ∧
    ∀ es : List ℚ, (interTickSleeps interval es).length = es.length := by
  refine ⟨fun e h => if_pos h, fun e h => if_neg (not_lt.2 h), fun es => ?_⟩
  simp [interTickSleeps]

/-- C9 witness: with a 5 second interval, a round that took 3 seconds is
followed by a 2 second sleep, and a round that took 7 seconds by no
sleep at all. -/
theorem scheduler_sleep_policy_witness :
    (0 < (5:ℚ) - 3 ∧ sleepDuration 5 3 = 5 - 3) ∧
    ((5:ℚ) - 7 ≤ 0 ∧ sleepDuration 5 7 = 0) :=
  ⟨⟨by norm_num, (scheduler_sleep_policy 5).1 3 (by norm_num)⟩,
   ⟨by norm_num, (scheduler_sleep_policy 5).2.1 7 (by norm_num)⟩⟩

end NanoSense
